import Mathlib

/-!
Verification development for the freehold document-sharing backend's upload
ingestion and metadata-consistency pipeline.

The definitions below are a shallow embedding, translated from the TypeScript
sources:

* `FileSecurityService` (content validator): signature matching, dangerous
  signature blocklist, filename validation, embedded-content scan, emptiness
  and null-byte checks, optional virus scan handling.
* `FileMetadataService.validateFile`: size/MIME/extension/name/quota checks.
* `VirusScanService.scanFile`: optional scanning capability.
* `S3Service` and `createS3Service`: presigned request generation and
  configuration loading.
* The upload validation middleware (`validateFileUpload`) with its Joi body
  schema.
* `FileService`: the upload orchestration (validation, object-store put,
  metadata create, error handling) plus retrieval/delete/update paths.

Byte buffers are `List Nat` (each entry one byte), wall-clock timestamps are
abstract `Nat` parameters, and external outcomes (database reads/writes, the
object store, the scanner) are passed in explicitly so control flow can be
reasoned about. Object-store side effects are reified as a trace.
-/

set_option maxRecDepth 8192

namespace FreeholdDocs

/-! ## Shared string and byte helpers

String operations are implemented structurally over the character list
(`String.data`) so that concrete runs reduce inside the kernel; each matches
the JavaScript string method named in its docstring. -/

/-- Whether `pat` occurs as a contiguous sublist of the text. -/
def listHasInfix (pat : List Char) : List Char → Bool
  | [] => pat.isEmpty
  | c :: rest => pat.isPrefixOf (c :: rest) || listHasInfix pat rest

/-- Substring containment (JavaScript `String.prototype.includes`). -/
def strContains (s pat : String) : Bool :=
  listHasInfix pat.data s.data

/-- Split a character list at every occurrence of a separator character. -/
def splitChars (sep : Char) : List Char → List (List Char)
  | [] => [[]]
  | c :: rest =>
    if c == sep then [] :: splitChars sep rest
    else
      match splitChars sep rest with
      | [] => [[c]]
      | g :: gs => (c :: g) :: gs

/-- JavaScript `String.prototype.split` with a single-character separator. -/
def strSplit (sep : Char) (s : String) : List String :=
  (splitChars sep s.data).map String.mk

/-- `String.prototype.toLowerCase` (ASCII range, which is all the sources
compare). -/
def lowerStr (s : String) : String :=
  String.mk (s.data.map Char.toLower)

/-- Character count of a string (JavaScript `length` for the ASCII and BMP
text these checks handle). -/
def strLen (s : String) : Nat :=
  s.data.length

/-- ASCII whitespace test used by `trimStr`. -/
def isSpaceChar (c : Char) : Bool :=
  c == ' ' || c == '\t' || c == '\n' || c == '\r'

/-- `String.prototype.trim` (ASCII whitespace). -/
def trimStr (s : String) : String :=
  String.mk (((s.data.dropWhile isSpaceChar).reverse.dropWhile isSpaceChar).reverse)

/-- `String.prototype.startsWith`. -/
def strStarts (s pat : String) : Bool :=
  pat.data.isPrefixOf s.data

/-- `String.prototype.endsWith`. -/
def strEnds (s pat : String) : Bool :=
  pat.data.reverse.isPrefixOf s.data.reverse

/-- Drop the first `n` characters (`String.prototype.substring(n)`). -/
def strDrop (s : String) (n : Nat) : String :=
  String.mk (s.data.drop n)

/-- Drop the last `n` characters. -/
def strDropRight (s : String) (n : Nat) : String :=
  String.mk (s.data.take (s.data.length - n))

/-- Uppercase hexadecimal digit for a value below 16. -/
def hexDigit (n : Nat) : Char :=
  if n < 10 then Char.ofNat (48 + n) else Char.ofNat (55 + n)

/-- Two-character uppercase hexadecimal rendering of one byte
(Node `Buffer.toString('hex')`, uppercased). -/
def byteHex (b : Nat) : String :=
  String.mk [hexDigit ((b % 256) / 16), hexDigit (b % 16)]

/-- Uppercase hexadecimal rendering of a byte buffer. -/
def bytesToHex (bs : List Nat) : String :=
  String.join (bs.map byteHex)

/-- Node `Buffer.toString('ascii')`: each byte is masked to 7 bits and read as
a character. -/
def asciiDecode (bs : List Nat) : String :=
  String.mk (bs.map (fun b => Char.ofNat (b % 128)))

/-- `Math.round(a / b)` for natural `a`, positive `b` (round half away from
zero, which is round half up on non-negatives). -/
def mathRoundDiv (a b : Nat) : Nat :=
  (2 * a + b) / (2 * b)

/-- JavaScript truthiness of an optional string (`undefined` and `''` are
falsy). -/
def truthy : Option String → Bool
  | none => false
  | some v => !(v == "")

/-! ## Constants from `models/Document.ts` -/

/-- `MAX_FILE_SIZE`: 50MB per-file cap. -/
def MAX_FILE_SIZE : Nat := 50 * 1024 * 1024

/-- `MAX_TOTAL_SIZE_PER_USER`: 500MB per-user cap. -/
def MAX_TOTAL_SIZE_PER_USER : Nat := 500 * 1024 * 1024

/-- `SUPPORTED_MIME_TYPES` from `models/Document.ts`. -/
def SUPPORTED_MIME_TYPES : List String :=
  ["application/pdf",
   "application/msword",
   "application/vnd.openxmlformats-officedocument.wordprocessingml.document",
   "text/plain",
   "image/jpeg",
   "image/png",
   "image/gif",
   "application/vnd.ms-excel",
   "application/vnd.openxmlformats-officedocument.spreadsheetml.sheet"]

/-! ## Virus scan service (`virusScanService.ts`) -/

/-- `VirusScanResult` (the `scanTimestamp : Date` field is wall-clock data and
is omitted from the embedding). -/
structure VirusScanResult where
  isClean : Bool
  threats : List String
  scanEngine : Option String
  errorMessage : Option String
deriving DecidableEq

/-- `VirusScanService.scanFile`: with scanning disabled a clean result is
returned; every placeholder engine integration returns a clean result; an
unknown configured engine yields a clean result carrying an `errorMessage`
(the catch branch likewise keeps `isClean` true and records the message, so
scan errors are fail-open by construction). -/
def VirusScanService.scanFile (enabled : Bool) (engine : String) : VirusScanResult :=
  if !enabled then
    { isClean := true, threats := [], scanEngine := some engine, errorMessage := none }
  else if lowerStr engine == "clamav" then
    { isClean := true, threats := [], scanEngine := some "clamav", errorMessage := none }
  else if lowerStr engine == "virustotal" then
    { isClean := true, threats := [], scanEngine := some "virustotal", errorMessage := none }
  else if lowerStr engine == "aws-guardduty" then
    { isClean := true, threats := [], scanEngine := some "aws-guardduty", errorMessage := none }
  else
    { isClean := true, threats := [], scanEngine := some engine,
      errorMessage := some ("Unknown scan engine: " ++ engine) }

/-! ## File security service (`fileSecurityService.ts`) -/

namespace FileSecurityService

/-- The `fileSignatures` table, in source (insertion) order. -/
def fileSignatures : List (String × List String) :=
  [("application/pdf", ["25504446"]),
   ("image/jpeg", ["FFD8FF"]),
   ("image/png", ["89504E47"]),
   ("image/gif", ["474946383761", "474946383961"]),
   ("application/msword", ["D0CF11E0A1B11AE1"]),
   ("application/vnd.openxmlformats-officedocument.wordprocessingml.document", ["504B0304"]),
   ("application/vnd.ms-excel", ["D0CF11E0A1B11AE1"]),
   ("application/vnd.openxmlformats-officedocument.spreadsheetml.sheet", ["504B0304"]),
   ("text/plain", [])]

/-- The `dangerousSignatures` blocklist: PE, ELF, Java class, Mach-O, Unix
archive magic numbers. -/
def dangerousSignatures : List String :=
  ["4D5A", "7F454C46", "CAFEBABE", "FEEDFACE", "213C617263683E"]

/-- First MIME type in `fileSignatures` one of whose signatures prefixes the
given hex string (the nested detection loop of `validateFileSignature`). -/
def detectType (signature : String) : Option String :=
  (fileSignatures.find? (fun p => p.2.any (fun sig => strStarts signature sig))).map (·.1)

/-- `isTextContent`: fewer than 10% non-printable bytes in the first 1KB.
The source compares `nonPrintable / sample.length < 0.1` in floating point;
this is the same predicate on exact rationals, with the empty-sample case
(`NaN < 0.1`, false) matched by `10 * 0 < 0` being false. -/
def isTextContent (buf : List Nat) : Bool :=
  let sample := buf.take 1024
  let nonPrintable :=
    (sample.filter (fun b => !((32 ≤ b && b ≤ 126) || b == 10 || b == 13 || b == 9))).length
  10 * nonPrintable < sample.length

/-- `containsNullBytes`. -/
def containsNullBytes (buf : List Nat) : Bool :=
  buf.contains 0

/-- Result of `validateFileSignature`. -/
structure SignatureCheck where
  isValid : Bool
  errors : List String
  warnings : List String
  detectedMimeType : Option String
  signature : String
deriving DecidableEq

/-- `validateFileSignature`: buffers below 4 bytes fail early (with the
`signature` field left as the empty string, as in the source); otherwise the
first 8 bytes are rendered as uppercase hex and matched against the table.
`text/plain` declarations skip signature matching and only run the binary
content heuristic as a warning. A detected type contradicting the declared
type is an error; an unverifiable signature for a known type is a warning. -/
def validateFileSignature (buf : List Nat) (declaredMimeType : String) : SignatureCheck :=
  if buf.length < 4 then
    { isValid := false, errors := ["File too small to validate signature"],
      warnings := [], detectedMimeType := none, signature := "" }
  else
    let signature := bytesToHex (buf.take 8)
    let detectedType := detectType signature
    if declaredMimeType == "text/plain" then
      { isValid := true, errors := [],
        warnings :=
          if !isTextContent buf then ["File declared as text but contains binary data"] else [],
        detectedMimeType := detectedType, signature := signature }
    else
      match detectedType with
      | some d =>
        if d ≠ declaredMimeType then
          { isValid := false,
            errors := ["File signature indicates " ++ d ++ " but declared as " ++ declaredMimeType],
            warnings := [], detectedMimeType := some d, signature := signature }
        else
          { isValid := true, errors := [], warnings := [],
            detectedMimeType := some d, signature := signature }
      | none =>
        if ((fileSignatures.lookup declaredMimeType).getD []).length > 0 then
          { isValid := true, errors := [],
            warnings := ["Could not verify file signature for declared MIME type"],
            detectedMimeType := none, signature := signature }
        else
          { isValid := true, errors := [], warnings := [],
            detectedMimeType := none, signature := signature }

/-- Result of `checkDangerousSignatures`. -/
structure DangerCheck where
  isValid : Bool
  errors : List String
  isExecutable : Bool
deriving DecidableEq

/-- `checkDangerousSignatures`: buffers below 4 bytes are skipped; otherwise
the uppercase hex of the first 8 bytes is tested against each blocklisted
magic number (first match wins and pushes a single error). -/
def checkDangerousSignatures (buf : List Nat) : DangerCheck :=
  if buf.length < 4 then
    { isValid := true, errors := [], isExecutable := false }
  else
    let signature := bytesToHex (buf.take 8)
    if dangerousSignatures.any (fun d => strStarts signature d) then
      { isValid := false, errors := ["File appears to be an executable or dangerous file type"],
        isExecutable := true }
    else
      { isValid := true, errors := [], isExecutable := false }

/-- The `expectedExtensions` table of `validateFileName`. -/
def expectedExtensions : List (String × List String) :=
  [("application/pdf", ["pdf"]),
   ("image/jpeg", ["jpg", "jpeg"]),
   ("image/png", ["png"]),
   ("image/gif", ["gif"]),
   ("application/msword", ["doc"]),
   ("application/vnd.openxmlformats-officedocument.wordprocessingml.document", ["docx"]),
   ("application/vnd.ms-excel", ["xls"]),
   ("application/vnd.openxmlformats-officedocument.spreadsheetml.sheet", ["xlsx"]),
   ("text/plain", ["txt", "text"])]

/-- The `dangerousSecondExtensions` list of `validateFileName`. -/
def dangerousSecondExtensions : List String :=
  ["exe", "bat", "cmd", "scr", "vbs", "js"]

/-- `fileName.toLowerCase().substring(fileName.lastIndexOf('.') + 1)`: the
lowercased text after the last dot, or the whole lowercased name when there is
no dot. -/
def extensionAfterLastDot (fileName : String) : String :=
  (strSplit '.' (lowerStr fileName)).getLastD (lowerStr fileName)

/-- Result of `validateFileName`. -/
structure NameCheck where
  isValid : Bool
  errors : List String
  warnings : List String
deriving DecidableEq

/-- `validateFileName`: an extension/MIME mismatch is a warning only; a name
with more than two dot-separated parts whose second-to-last part (lowercased)
is a dangerous extension is an error ("double extension"). -/
def validateFileName (fileName mimeType : String) : NameCheck :=
  let extension := extensionAfterLastDot fileName
  let warnings :=
    match expectedExtensions.lookup mimeType with
    | some expected =>
      if !expected.contains extension then
        ["File extension '" ++ extension ++ "' doesn't match MIME type '" ++ mimeType ++ "'"]
      else []
    | none => []
  let parts := strSplit '.' fileName
  if parts.length > 2 then
    let secondToLast := lowerStr (parts.getD (parts.length - 2) "")
    if dangerousSecondExtensions.contains secondToLast then
      { isValid := false, errors := ["File has potentially dangerous double extension"],
        warnings := warnings }
    else
      { isValid := true, errors := [], warnings := warnings }
  else
    { isValid := true, errors := [], warnings := warnings }

/-- Result of `checkEmbeddedContent`. -/
structure EmbeddedCheck where
  warnings : List String
  hasEmbedded : Bool
deriving DecidableEq

/-- `checkEmbeddedContent`: script markers in the ASCII-decoded stream of PDFs
and the macro project marker in Office documents are warnings, never errors. -/
def checkEmbeddedContent (buf : List Nat) (mimeType : String) : EmbeddedCheck :=
  let content := asciiDecode buf
  let r0 : EmbeddedCheck := { warnings := [], hasEmbedded := false }
  let r1 :=
    if mimeType == "application/pdf" &&
        (strContains content "/JavaScript" || strContains content "/JS") then
      { warnings := r0.warnings ++ ["PDF contains embedded JavaScript"], hasEmbedded := true }
    else r0
  if (strContains mimeType "officedocument" || strContains mimeType "msword" ||
      strContains mimeType "ms-excel") && strContains content "vbaProject.bin" then
    { warnings := r1.warnings ++ ["Office document contains macros"], hasEmbedded := true }
  else r1

/-- The `metadata` record accumulated by `validateFile`. -/
structure SecurityMetadata where
  detectedMimeType : Option String := none
  fileSignature : Option String := none
  isExecutable : Option Bool := none
  hasEmbeddedContent : Option Bool := none
  virusScanResult : Option VirusScanResult := none
deriving DecidableEq

/-- `FileSecurityResult`. -/
structure FileSecurityResult where
  isValid : Bool
  errors : List String
  warnings : List String
  metadata : SecurityMetadata
deriving DecidableEq

/-- `FileSecurityService.validateFile`, step by step as in the source:
signature validation (its warnings merged only when it failed), dangerous
signature check, filename validation (same warning-merge behavior), embedded
content check, emptiness check, null-byte check, then the optional virus scan
(`scan = none` models `isVirusScanEnabled()` returning false; otherwise `scan`
carries the awaited `scanFile` result). Every step runs; errors and warnings
accumulate. -/
def validateFile (buf : List Nat) (originalName mimeType : String)
    (scan : Option VirusScanResult) : FileSecurityResult :=
  let r0 : FileSecurityResult := { isValid := true, errors := [], warnings := [], metadata := {} }
  -- 1. Validate file signature against MIME type
  let sig := validateFileSignature buf mimeType
  let r1 :=
    if sig.isValid then r0
    else { r0 with errors := r0.errors ++ sig.errors,
                   warnings := r0.warnings ++ sig.warnings, isValid := false }
  let r1 := { r1 with metadata :=
    { r1.metadata with detectedMimeType := sig.detectedMimeType, fileSignature := some sig.signature } }
  -- 2. Check for dangerous file signatures
  let dc := checkDangerousSignatures buf
  let r2 :=
    if dc.isValid then r1
    else { r1 with errors := r1.errors ++ dc.errors, isValid := false }
  let r2 := { r2 with metadata := { r2.metadata with isExecutable := some dc.isExecutable } }
  -- 3. Validate file name and extension
  let nv := validateFileName originalName mimeType
  let r3 :=
    if nv.isValid then r2
    else { r2 with errors := r2.errors ++ nv.errors,
                   warnings := r2.warnings ++ nv.warnings, isValid := false }
  -- 4. Check for embedded content
  let ec := checkEmbeddedContent buf mimeType
  let r4 := { r3 with warnings := r3.warnings ++ ec.warnings,
                      metadata := { r3.metadata with hasEmbeddedContent := some ec.hasEmbedded } }
  -- 5. Validate file size consistency
  let r5 :=
    if buf.isEmpty then { r4 with errors := r4.errors ++ ["File is empty"], isValid := false }
    else r4
  -- 6. Check for null bytes
  let r6 :=
    if containsNullBytes buf then
      { r5 with warnings := r5.warnings ++ ["File contains null bytes, which may indicate binary content"] }
    else r5
  -- 7. Optional virus scanning
  match scan with
  | none => r6
  | some vr =>
    let r7 := { r6 with metadata := { r6.metadata with virusScanResult := some vr } }
    let threatMsg := "Virus scan detected threats: " ++ String.intercalate ", " vr.threats
    let r8 :=
      if vr.isClean then r7
      else { r7 with errors := r7.errors ++ [threatMsg], isValid := false }
    match vr.errorMessage with
    | none => r8
    | some m => { r8 with warnings := r8.warnings ++ ["Virus scan warning: " ++ m] }

end FileSecurityService

/-! ## File metadata service (`fileMetadataService.ts`) -/

/-- The multer file object as consumed by `FileMetadataService.validateFile`
and `FileService.uploadFile` (`originalname`, `mimetype`, `size`, `buffer`). -/
structure UploadFileInfo where
  originalname : String
  mimetype : String
  size : Nat
  buffer : List Nat
deriving DecidableEq

namespace FileMetadataService

/-- `FileValidationOptions` with its destructuring defaults. -/
structure FileValidationOptions where
  maxFileSize : Nat := MAX_FILE_SIZE
  allowedMimeTypes : List String := SUPPORTED_MIME_TYPES
  checkUserQuota : Bool := true
  userId : Option String := none
deriving DecidableEq

/-- `FileValidationResult` (`isValid` is computed as `errors.length === 0`). -/
structure FileValidationResult where
  isValid : Bool
  errors : List String
deriving DecidableEq

/-- The `validExtensions` table of `isValidFileExtension`. -/
def validExtensions : List (String × List String) :=
  [("application/pdf", ["pdf"]),
   ("application/msword", ["doc"]),
   ("application/vnd.openxmlformats-officedocument.wordprocessingml.document", ["docx"]),
   ("text/plain", ["txt"]),
   ("image/jpeg", ["jpg", "jpeg"]),
   ("image/png", ["png"]),
   ("image/gif", ["gif"]),
   ("application/vnd.ms-excel", ["xls"]),
   ("application/vnd.openxmlformats-officedocument.spreadsheetml.sheet", ["xlsx"])]

/-- `isValidFileExtension`: a falsy (empty) extension fails; otherwise the
extension must appear in the table row for the MIME type. -/
def isValidFileExtension (extension : String) (mimeType : String) : Bool :=
  if extension == "" then false
  else
    match validExtensions.lookup mimeType with
    | some allowed => allowed.contains extension
    | none => false

/-- The Windows reserved device names matched (case-insensitively, as a full
name) by both `isDangerousFileName` and the middleware's suspicious-name
check. -/
def windowsReservedNames : List String :=
  ["con", "prn", "aux", "nul",
   "com1", "com2", "com3", "com4", "com5", "com6", "com7", "com8", "com9",
   "lpt1", "lpt2", "lpt3", "lpt4", "lpt5", "lpt6", "lpt7", "lpt8", "lpt9"]

/-- Full-name, case-insensitive match of a Windows reserved device name. -/
def isWindowsReserved (s : String) : Bool :=
  windowsReservedNames.contains (lowerStr s)

/-- `isDangerousFileName`: Windows reserved characters, reserved device names,
hidden-file prefix, directory traversal, control characters. -/
def isDangerousFileName (filename : String) : Bool :=
  filename.data.any (fun c => ['<', '>', ':', '"', '|', '?', '*'].contains c) ||
  isWindowsReserved filename ||
  strStarts filename "." ||
  strContains filename ".." ||
  filename.data.any (fun c => c.toNat ≤ 31)

/-- `file.originalname.split('.').pop()?.toLowerCase()`. -/
def popExtension (originalname : String) : String :=
  lowerStr ((strSplit '.' originalname).getLastD "")

/-- `FileMetadataService.validateFile`. `userTotalSize` is the database
aggregate returned by `getUserTotalFileSize` for `options.userId`, passed in
explicitly; the quota check runs only when `checkUserQuota` is set and the
user id is truthy, exactly as in the source. All checks accumulate into
`errors` and the result is valid iff no error accumulated. -/
def validateFile (file : UploadFileInfo) (options : FileValidationOptions)
    (userTotalSize : Nat) : FileValidationResult :=
  let sizeErrors :=
    if file.size > options.maxFileSize then
      ["File size exceeds maximum limit of " ++
        toString (mathRoundDiv options.maxFileSize (1024 * 1024)) ++ "MB"]
    else []
  let mimeErrors :=
    if !options.allowedMimeTypes.contains file.mimetype then
      ["File type '" ++ file.mimetype ++ "' is not supported"]
    else []
  let extErrors :=
    if !isValidFileExtension (popExtension file.originalname) file.mimetype then
      ["File extension does not match file type"]
    else []
  let nameErrors :=
    if strLen (trimStr file.originalname) = 0 then ["File name is required"] else []
  let dangerErrors :=
    if isDangerousFileName file.originalname then
      ["File name contains invalid characters"]
    else []
  let quotaErrors :=
    if options.checkUserQuota && truthy options.userId &&
        decide (userTotalSize + file.size > MAX_TOTAL_SIZE_PER_USER) then
      ["Upload would exceed user storage limit of " ++
        toString (mathRoundDiv MAX_TOTAL_SIZE_PER_USER (1024 * 1024)) ++ "MB"]
    else []
  let errors := sizeErrors ++ mimeErrors ++ extErrors ++ nameErrors ++ dangerErrors ++ quotaErrors
  { isValid := errors.isEmpty, errors := errors }

end FileMetadataService

/-! ## Document model (`models/Document.ts`) -/

/-- The `securityMetadata` payload of `CreateDocumentData` (the
`scanTimestamp` added by `createDocument` is wall-clock data, omitted). -/
structure SecurityMetadataInput where
  detectedMimeType : Option String := none
  fileSignature : Option String := none
  hasEmbeddedContent : Option Bool := none
  securityWarnings : List String := []
deriving DecidableEq

/-- The `Document` row (timestamps abstracted to `Nat`). -/
structure Document where
  id : String
  fileName : String
  originalName : String
  fileSize : Nat
  mimeType : String
  s3Key : String
  categoryId : Option String
  uploadedBy : String
  description : Option String
  tags : List String
  securityMetadata : Option SecurityMetadataInput
  createdAt : Nat
  updatedAt : Nat
deriving DecidableEq

/-- `CreateDocumentData`. -/
structure CreateDocumentData where
  fileName : String
  originalName : String
  fileSize : Nat
  mimeType : String
  s3Key : String
  categoryId : Option String
  uploadedBy : String
  description : Option String
  tags : Option (List String)
  securityMetadata : Option SecurityMetadataInput
deriving DecidableEq

/-! ## S3 service (`s3Service.ts`) -/

/-- `S3UploadResult`. -/
structure S3UploadResult where
  key : String
  location : String
  etag : String
  bucket : String
deriving DecidableEq

/-- The service state kept by `S3Service` that presigning depends on. -/
structure S3Service where
  bucketName : String
  presignedUrlExpires : Option Nat
deriving DecidableEq

/-- The parameter record signed into a presigned `getObject` URL: bucket, key,
expiry seconds, and the response content disposition. A URL is valid exactly
for the request it signs, so two URLs minted from different parameter records
are not interchangeable. -/
structure SignedRequest where
  bucket : String
  key : String
  expires : Option Nat
  responseContentDisposition : String
deriving DecidableEq

/-- `generatePresignedDownloadUrl`: disposition `attachment` (force download),
expiry from the service configuration. -/
def S3Service.generatePresignedDownloadUrl (svc : S3Service) (key : String) : SignedRequest :=
  { bucket := svc.bucketName, key := key, expires := svc.presignedUrlExpires,
    responseContentDisposition := "attachment" }

/-- `generatePresignedViewUrl`: disposition `inline` (render in browser),
expiry from the service configuration. -/
def S3Service.generatePresignedViewUrl (svc : S3Service) (key : String) : SignedRequest :=
  { bucket := svc.bucketName, key := key, expires := svc.presignedUrlExpires,
    responseContentDisposition := "inline" }

/-- JavaScript `parseInt` restricted to the shapes this configuration uses:
leading decimal digits parse to a number, anything else is `NaN`, modeled as
`none`. -/
def jsParseNat (s : String) : Option Nat :=
  let digits := s.data.takeWhile Char.isDigit
  if digits.isEmpty then none
  else some (digits.foldl (fun acc c => acc * 10 + (c.toNat - 48)) 0)

/-- `process.env.K || dflt`: an unset or empty variable falls back to the
default. -/
def envOr (env : String → Option String) (k dflt : String) : String :=
  match env k with
  | none => dflt
  | some v => if v == "" then dflt else v

/-- `createS3Service`: reads the region, credentials, bucket and
`S3_PRESIGNED_URL_EXPIRES` (defaulting to the string `'900'`) from the
environment, then fails when credentials or bucket are missing. -/
def createS3Service (env : String → Option String) : Except String S3Service :=
  let accessKeyId := envOr env "AWS_ACCESS_KEY_ID" ""
  let secretAccessKey := envOr env "AWS_SECRET_ACCESS_KEY" ""
  let bucketName := envOr env "S3_BUCKET_NAME" ""
  let presignedUrlExpires := jsParseNat (envOr env "S3_PRESIGNED_URL_EXPIRES" "900")
  if accessKeyId == "" || secretAccessKey == "" || bucketName == "" then
    .error "Missing required AWS S3 configuration. Please check your environment variables."
  else
    .ok { bucketName := bucketName, presignedUrlExpires := presignedUrlExpires }

/-! ## Upload validation middleware (`validationMiddleware.ts`) -/

/-- The raw `tags` field of an upload request body: absent, a single string
(the usual multipart form shape), or a genuine array (JSON bodies). -/
inductive TagsField where
  | missing
  | str (raw : String)
  | arr (items : List String)
deriving DecidableEq

/-- The upload request body before validation. -/
structure UploadBody where
  categoryId : Option String
  description : Option String
  tags : TagsField
deriving DecidableEq

/-- The body after Joi validation replaced it (`req.body = value`): trims
applied and a string `tags` field already turned into an array. -/
structure ValidatedUploadBody where
  categoryId : Option String
  description : Option String
  tags : Option (List String)
deriving DecidableEq

/-- Hexadecimal digit test (both cases). -/
def isHexDigitChar (c : Char) : Bool :=
  c.isDigit || ('a' ≤ c && c ≤ 'f') || ('A' ≤ c && c ≤ 'F')

/-- `Joi.string().uuid()` in the canonical hyphenated 8-4-4-4-12 form. -/
def isUuid (s : String) : Bool :=
  let cs := s.data
  cs.length == 36 &&
  (cs.enum.all (fun p =>
    if p.1 == 8 || p.1 == 13 || p.1 == 18 || p.1 == 23 then p.2 == '-'
    else isHexDigitChar p.2))

/-- `JSON.parse` restricted to flat arrays of escape-free string literals
(the only shape the tags field carries); other JSON shapes and parse failures
come out as `none`, matching the middleware's fallback to `[value]`. -/
def jsonStringArray? (s : String) : Option (List String) :=
  let t := trimStr s
  if strStarts t "[" && strEnds t "]" && decide (strLen t ≥ 2) then
    let inner := trimStr (strDropRight (strDrop t 1) 1)
    if inner == "" then some []
    else
      (strSplit ',' inner).mapM (fun piece =>
        let q := trimStr piece
        if decide (strLen q ≥ 2) && strStarts q "\"" && strEnds q "\"" &&
            !strContains (strDropRight (strDrop q 1) 1) "\"" then
          some (strDropRight (strDrop q 1) 1)
        else none)
  else none

/-- The Joi constraints on an array of tags:
`Joi.array().items(Joi.string().trim().max(50)).max(10)`. -/
def tagItemsOk (l : List String) : Bool :=
  decide (l.length ≤ 10) && l.all (fun t => decide (strLen (trimStr t) ≤ 50))

/-- The `tags` alternative of `fileUploadSchema`:
an array value must satisfy the count/length limits (and comes back trimmed);
a string value is first converted by the array alternative (limits enforced)
and otherwise accepted verbatim by the custom `JSON.parse` alternative, which
never fails — so a string-shaped tags field is accepted regardless of how
many or how long the tags it encodes are. `none` means validation error. -/
def joiValidateTags : TagsField → Option (Option (List String))
  | .missing => some none
  | .arr items =>
    if tagItemsOk items then some (some (items.map trimStr)) else none
  | .str raw =>
    match jsonStringArray? raw with
    | some items =>
      if tagItemsOk items then some (some (items.map trimStr))
      else some (some items)
    | none => some (some [raw])

/-- The `description` rule: `Joi.string().max(500).optional().trim().allow('')`. -/
def joiValidateDescription : Option String → Option (Option String)
  | none => some none
  | some d => if decide (strLen (trimStr d) ≤ 500) then some (some (trimStr d)) else none

/-- The `categoryId` rule: `Joi.string().uuid().optional()`. -/
def joiValidateCategoryId : Option String → Option (Option String)
  | none => some none
  | some c => if isUuid c then some (some c) else none

/-- `fileUploadSchema.validate(req.body)`: all three fields must pass;
`none` is the `VALIDATION_ERROR` outcome. -/
def joiValidateUploadBody (b : UploadBody) : Option ValidatedUploadBody :=
  match joiValidateCategoryId b.categoryId, joiValidateDescription b.description,
        joiValidateTags b.tags with
  | some c, some d, some t => some { categoryId := c, description := d, tags := t }
  | _, _, _ => none

/-- Outcome of the `validateFileUpload` middleware: a structured rejection
with its error code, or `next()` with the validated body. -/
inductive MWOutcome where
  | reject (code : String)
  | ok (body : ValidatedUploadBody)
deriving DecidableEq

/-- The middleware's `dangerousExtensions` blocklist on the final extension. -/
def dangerousFinalExtensions : List String :=
  [".exe", ".bat", ".cmd", ".com", ".pif", ".scr", ".vbs", ".js", ".jar", ".sh"]

/-- `fileName.toLowerCase().substring(fileName.lastIndexOf('.'))`: the final
extension including its dot; with no dot, `substring(-1)` clamps to the whole
lowercased name. -/
def finalExtensionWithDot (fileName : String) : String :=
  let lower := lowerStr fileName
  if strContains fileName "." then "." ++ (strSplit '.' lower).getLastD ""
  else lower

/-- The middleware's `suspiciousPatterns`: directory traversal, invalid
filename characters, Windows reserved device names. -/
def isSuspiciousFileName (fileName : String) : Bool :=
  strContains fileName ".." ||
  fileName.data.any (fun c => ['<', '>', ':', '"', '|', '?', '*'].contains c) ||
  FileMetadataService.isWindowsReserved fileName

/-- `validateFileUpload` (the upload route's validation middleware): file
presence, 50MB size double-check, non-empty name, dangerous final extension,
suspicious name patterns, 255-character name length limit, then the Joi body
schema. The checks run in this order and the first failure produces its
structured rejection. -/
def validateFileUpload : Option UploadFileInfo → UploadBody → MWOutcome
  | none, _ => .reject "NO_FILE"
  | some f, body =>
    if f.size > 50 * 1024 * 1024 then .reject "FILE_TOO_LARGE"
    else if strLen (trimStr f.originalname) = 0 then .reject "INVALID_FILE_NAME"
    else if dangerousFinalExtensions.contains (finalExtensionWithDot f.originalname) then
      .reject "DANGEROUS_FILE_TYPE"
    else if isSuspiciousFileName f.originalname then .reject "INVALID_FILE_NAME"
    else if strLen f.originalname > 255 then .reject "FILE_NAME_TOO_LONG"
    else
      match joiValidateUploadBody body with
      | none => .reject "VALIDATION_ERROR"
      | some v => .ok v

/-- `MWOutcome.accepted`: whether the middleware called `next()`. -/
def MWOutcome.accepted : MWOutcome → Bool
  | .reject _ => false
  | .ok _ => true

/-- The tag parsing in `FileController.uploadFile` applied to the validated
body: after Joi, `tags` is already an array (or absent, yielding `[]`); the
string branch of the controller is unreachable at that point. -/
def parseTags (tags : Option (List String)) : List String :=
  tags.getD []

/-! ## File service (`fileService.ts`) -/

/-- Object-store side effects performed by an upload, in order. -/
inductive StoreEffect where
  | s3Put
  | s3Delete (key : String)
deriving DecidableEq

/-- The externally determined outcomes an `uploadFile` run can observe: the
uploader's aggregated stored bytes, the object-store put outcome, the
metadata insert outcome, the generated row id and the clock. -/
structure UploadEnv where
  userTotalSize : Nat
  s3Put : Except String S3UploadResult
  metaCreate : Except String Unit
  newId : String
  now : Nat

/-- `FileUploadData` (the controller-assembled upload payload). -/
structure FileUploadData where
  file : UploadFileInfo
  userId : String
  categoryId : Option String
  description : Option String
  tags : Option (List String)
  securityMetadata : Option SecurityMetadataInput
deriving DecidableEq

/-- `FileUploadResult`. -/
structure FileUploadResult where
  document : Document
deriving DecidableEq

namespace FileMetadataService

/-- `createDocument`: builds the row (id from `dbUtils.generateId`, timestamps
from the clock) and inserts it; the insert outcome is the environment's
`metaCreate`. -/
def createDocument (env : UploadEnv) (data : CreateDocumentData) : Except String Document :=
  match env.metaCreate with
  | .error e => .error e
  | .ok _ =>
    .ok { id := env.newId, fileName := data.fileName, originalName := data.originalName,
          fileSize := data.fileSize, mimeType := data.mimeType, s3Key := data.s3Key,
          categoryId := data.categoryId, uploadedBy := data.uploadedBy,
          description := data.description, tags := data.tags.getD [],
          securityMetadata := data.securityMetadata,
          createdAt := env.now, updatedAt := env.now }

end FileMetadataService

namespace FileService

/-- `FileService.uploadFile`: validate (including the quota check), then put
the bytes into the object store, then create the metadata row. The returned
trace records the object-store operations that were invoked. A failed put
throws a message containing `'S3'`, which the catch block rethrows. When the
metadata create fails after a successful put, the catch block's cleanup branch
is empty in the source (the comment notes the S3 key is unavailable and cleanup
is left to a transaction-like approach that does not exist), so the error is
rethrown without any compensating `deleteFile` call. -/
def uploadFile (env : UploadEnv) (uploadData : FileUploadData) :
    Except String FileUploadResult × List StoreEffect :=
  let validation := FileMetadataService.validateFile uploadData.file
    { checkUserQuota := true, userId := some uploadData.userId } env.userTotalSize
  if !validation.isValid then
    (.error ("File validation failed: " ++ String.intercalate ", " validation.errors), [])
  else
    match env.s3Put with
    | .error e => (.error e, [.s3Put])
    | .ok s3Result =>
      let documentData : CreateDocumentData :=
        { fileName := uploadData.file.originalname,
          originalName := uploadData.file.originalname,
          fileSize := uploadData.file.size,
          mimeType := uploadData.file.mimetype,
          s3Key := s3Result.key,
          categoryId := uploadData.categoryId,
          uploadedBy := uploadData.userId,
          description := uploadData.description,
          tags := uploadData.tags,
          securityMetadata := uploadData.securityMetadata }
      match FileMetadataService.createDocument env documentData with
      | .ok document => (.ok { document := document }, [.s3Put])
      | .error e =>
        if strContains e "S3" then
          -- S3 upload failed, no cleanup needed: rethrow
          (.error e, [.s3Put])
        else
          -- metadata creation failed: the cleanup try-block is empty, rethrow
          (.error e, [.s3Put])

/-- The metadata rows and the set of object keys present in the bucket, as
seen by the retrieval and delete paths. -/
structure FileSystemState where
  documents : List Document
  s3Keys : List String
deriving DecidableEq

/-- The errors thrown by the retrieval, delete and update paths. -/
inductive FileError where
  | documentNotFound
  | fileNotFoundInStorage
  | permissionDenied
deriving DecidableEq

/-- `getDocumentById` lookup. -/
def getDocumentById (docs : List Document) (id : String) : Option Document :=
  docs.find? (fun d => d.id == id)

/-- Whether a result is the ownership-violation (`Permission denied`,
HTTP 403 Forbidden) outcome. -/
def isForbidden {α : Type} : Except FileError α → Bool
  | .error .permissionDenied => true
  | _ => false

/-- `FileService.getDownloadUrl`: look the document up, verify the object
exists, and mint an attachment-disposition presigned request. The source
performs no ownership check on this path (its comment: users can access any
document, per the community sharing requirements); the caller id is unused. -/
def getDownloadUrl (svc : S3Service) (st : FileSystemState)
    (documentId _userId : String) : Except FileError SignedRequest :=
  match getDocumentById st.documents documentId with
  | none => .error .documentNotFound
  | some document =>
    if st.s3Keys.contains document.s3Key then
      .ok (svc.generatePresignedDownloadUrl document.s3Key)
    else .error .fileNotFoundInStorage

/-- `FileService.getViewUrl`: same as the download path but minting an
inline-disposition presigned request; no ownership check either. -/
def getViewUrl (svc : S3Service) (st : FileSystemState)
    (documentId _userId : String) : Except FileError SignedRequest :=
  match getDocumentById st.documents documentId with
  | none => .error .documentNotFound
  | some document =>
    if st.s3Keys.contains document.s3Key then
      .ok (svc.generatePresignedViewUrl document.s3Key)
    else .error .fileNotFoundInStorage

/-- `FileService.deleteDocument`: only the uploader may delete; the object is
deleted first (S3 `deleteObject` succeeds also for absent keys), then the
metadata row. -/
def deleteDocument (st : FileSystemState) (documentId userId : String) :
    Except FileError (Bool × FileSystemState) :=
  match getDocumentById st.documents documentId with
  | none => .error .documentNotFound
  | some document =>
    if document.uploadedBy ≠ userId then .error .permissionDenied
    else
      .ok (true,
        { documents := st.documents.filter (fun d => !(d.id == documentId)),
          s3Keys := st.s3Keys.filter (fun k => !(k == document.s3Key)) })

/-- `UpdateDocumentData` of `updateDocumentMetadata`: `categoryId` uses a
double option to keep the source's undefined/null distinction (outer `none` =
field absent). -/
structure UpdateDocumentData where
  fileName : Option String := none
  categoryId : Option (Option String) := none
  description : Option (Option String) := none
  tags : Option (List String) := none
deriving DecidableEq

/-- `FileMetadataService.updateDocument` field merging: a truthy `fileName`
replaces the name; present `categoryId`/`description`/`tags` fields replace
their columns. -/
def applyDocumentUpdate (doc : Document) (u : UpdateDocumentData) (now : Nat) : Document :=
  let doc := match u.fileName with
    | some fn => if fn == "" then doc else { doc with fileName := fn }
    | none => doc
  let doc := match u.categoryId with
    | some c => { doc with categoryId := c }
    | none => doc
  let doc := match u.description with
    | some d => { doc with description := d }
    | none => doc
  let doc := match u.tags with
    | some t => { doc with tags := t }
    | none => doc
  { doc with updatedAt := now }

/-- `FileService.updateDocumentMetadata`: lookup, ownership check (only the
uploader may update), then the metadata update. -/
def updateDocumentMetadata (st : FileSystemState) (documentId userId : String)
    (updates : UpdateDocumentData) (now : Nat) : Except FileError Document :=
  match getDocumentById st.documents documentId with
  | none => .error .documentNotFound
  | some document =>
    if document.uploadedBy ≠ userId then .error .permissionDenied
    else .ok (applyDocumentUpdate document updates now)

end FileService

/-! ## Helper lemmas -/

namespace FileSecurityService

/-- The errors contributed by the optional virus scan step. -/
def scanErrors : Option VirusScanResult → List String
  | none => []
  | some vr =>
    if vr.isClean then []
    else ["Virus scan detected threats: " ++ String.intercalate ", " vr.threats]

/-- The warnings contributed by the optional virus scan step. -/
def scanWarnings : Option VirusScanResult → List String
  | none => []
  | some vr =>
    match vr.errorMessage with
    | none => []
    | some m => ["Virus scan warning: " ++ m]

/-- Whether the optional virus scan step leaves the verdict valid. -/
def scanPasses : Option VirusScanResult → Bool
  | none => true
  | some vr => vr.isClean

/-- Closed form of one `validateFile` run: every check contributes its errors
and warnings in the source's fixed order, and the verdict is valid exactly
when no check failed. -/
theorem validateFile_eq (buf : List Nat) (name mime : String)
    (scan : Option VirusScanResult) :
    validateFile buf name mime scan =
      { isValid :=
          (validateFileSignature buf mime).isValid &&
          (checkDangerousSignatures buf).isValid &&
          (validateFileName name mime).isValid &&
          !buf.isEmpty && scanPasses scan,
        errors :=
          (if (validateFileSignature buf mime).isValid then []
           else (validateFileSignature buf mime).errors) ++
          (if (checkDangerousSignatures buf).isValid then []
           else (checkDangerousSignatures buf).errors) ++
          (if (validateFileName name mime).isValid then []
           else (validateFileName name mime).errors) ++
          (if buf.isEmpty then ["File is empty"] else []) ++
          scanErrors scan,
        warnings :=
          (if (validateFileSignature buf mime).isValid then []
           else (validateFileSignature buf mime).warnings) ++
          (if (validateFileName name mime).isValid then []
           else (validateFileName name mime).warnings) ++
          (checkEmbeddedContent buf mime).warnings ++
          (if containsNullBytes buf then
             ["File contains null bytes, which may indicate binary content"] else []) ++
          scanWarnings scan,
        metadata :=
          { detectedMimeType := (validateFileSignature buf mime).detectedMimeType,
            fileSignature := some (validateFileSignature buf mime).signature,
            isExecutable := some (checkDangerousSignatures buf).isExecutable,
            hasEmbeddedContent := some (checkEmbeddedContent buf mime).hasEmbedded,
            virusScanResult := scan } } := by
  unfold validateFile
  rcases scan with _ | vr
  · cases hs : (validateFileSignature buf mime).isValid <;>
      cases hd : (checkDangerousSignatures buf).isValid <;>
      cases hn : (validateFileName name mime).isValid <;>
      cases he : buf.isEmpty <;>
      cases hz : containsNullBytes buf <;>
      simp [hs, hd, hn, he, hz, scanErrors, scanWarnings, scanPasses]
  · cases hc : vr.isClean <;> rcases hm : vr.errorMessage with _ | m <;>
      cases hs : (validateFileSignature buf mime).isValid <;>
      cases hd : (checkDangerousSignatures buf).isValid <;>
      cases hn : (validateFileName name mime).isValid <;>
      cases he : buf.isEmpty <;>
      cases hz : containsNullBytes buf <;>
      simp [hs, hd, hn, he, hz, hc, hm, scanErrors, scanWarnings, scanPasses]

end FileSecurityService

namespace FileMetadataService

/-- With the quota check requested for a truthy user whose stored bytes plus
the new file exceed the per-user cap, `validateFile` reports an invalid
result. -/
theorem validateFile_quota_invalid (file : UploadFileInfo)
    (options : FileValidationOptions) (userTotalSize : Nat)
    (hq : options.checkUserQuota = true) (hu : truthy options.userId = true)
    (hover : userTotalSize + file.size > MAX_TOTAL_SIZE_PER_USER) :
    (validateFile file options userTotalSize).isValid = false := by
  unfold validateFile
  simp [hq, hu, hover, List.isEmpty_iff, List.append_eq_nil]

end FileMetadataService

/-! ## C1: compensating delete on metadata-create failure -/

/-- Scenario for the one unavoidable partial-failure window: validation
passes, the object-store put succeeds with a concrete key, and the metadata
insert then fails with a database error (whose message does not contain
`'S3'`). -/
def metaFailEnv : UploadEnv :=
  { userTotalSize := 0,
    s3Put := .ok { key := "documents/user-1/abc.pdf", location := "https://b/documents/user-1/abc.pdf",
                   etag := "e", bucket := "b" },
    metaCreate := .error "insert failed: connection reset",
    newId := "doc-1", now := 0 }

/-- The upload payload for the metadata-failure scenario. -/
def metaFailData : FileUploadData :=
  { file := { originalname := "report.pdf", mimetype := "application/pdf",
              size := 1024, buffer := [37, 80, 68, 70] },
    userId := "user-1", categoryId := none, description := none,
    tags := some [], securityMetadata := none }

/-- C1: when the metadata create fails after a successful put, the source's
catch block rethrows without invoking any compensating delete — its cleanup
branch is an empty block (left as unimplemented in the original code). At the
failing input the error propagates and the object-store trace is exactly the
put, with no delete of the stored key, contradicting the stated compensating
delete and Audit Sink record. -/
theorem uploadFile_metaFailure_no_compensating_delete :
    (FileService.uploadFile metaFailEnv metaFailData).1 = .error "insert failed: connection reset" ∧
    (FileService.uploadFile metaFailEnv metaFailData).2 = [StoreEffect.s3Put] :=
  ⟨rfl, rfl⟩

/-! ## C2: quota check runs before any object-store write -/

/-- C2: an upload whose size added to the uploader's stored total exceeds the
500MB per-user cap fails validation and the orchestration returns before the
object-store step: the result is an error and the effect trace is empty, so
`put` is never invoked. The caller id is assumed non-empty (authentication
yields a caller identity; the source skips the quota check for a falsy id). -/
theorem uploadFile_quota_exceeded_rejected_before_put
    (env : UploadEnv) (d : FileUploadData) (hid : d.userId ≠ "")
    (hover : env.userTotalSize + d.file.size > MAX_TOTAL_SIZE_PER_USER) :
    (∃ e, (FileService.uploadFile env d).1 = .error e) ∧
    (FileService.uploadFile env d).2 = [] := by
  have hv : (FileMetadataService.validateFile d.file
      { checkUserQuota := true, userId := some d.userId } env.userTotalSize).isValid = false :=
    FileMetadataService.validateFile_quota_invalid _ _ _ rfl (by simp [truthy, hid]) hover
  simp only [FileService.uploadFile, hv, Bool.not_false, if_true]
  exact ⟨⟨_, rfl⟩, trivial⟩

/-- Witness environment: the uploader already stores 490MB. -/
def quotaEnv : UploadEnv :=
  { userTotalSize := 490 * 1024 * 1024,
    s3Put := .ok { key := "documents/user-1/x.pdf", location := "l", etag := "e", bucket := "b" },
    metaCreate := .ok (), newId := "doc-2", now := 0 }

/-- Witness payload: a 20MB file, pushing usage from 490MB to 510MB. -/
def quotaData : FileUploadData :=
  { file := { originalname := "report.pdf", mimetype := "application/pdf",
              size := 20 * 1024 * 1024, buffer := [37, 80, 68, 70] },
    userId := "user-1", categoryId := none, description := none,
    tags := some [], securityMetadata := none }

/-- Witness for C2 at the 490MB + 20MB > 500MB instance. -/
theorem uploadFile_quota_exceeded_rejected_before_put_witness :
    (∃ e, (FileService.uploadFile quotaEnv quotaData).1 = .error e) ∧
    (FileService.uploadFile quotaEnv quotaData).2 = [] :=
  uploadFile_quota_exceeded_rejected_before_put quotaEnv quotaData
    (by decide) (by decide)

/-! ## C3: the double-extension check and `invoice.pdf.exe` -/

/-- C3 counterexample: the Content Validator's filename validation accepts
`invoice.pdf.exe` — its double-extension rule inspects the second-to-last
dot-separated segment, which here is `pdf`, not a dangerous extension, so no
error is raised (the `.exe`/PDF mismatch is only a warning). -/
theorem validateFileName_accepts_invoice_pdf_exe :
    (FileSecurityService.validateFileName "invoice.pdf.exe" "application/pdf").isValid = true ∧
    (FileSecurityService.validateFileName "invoice.pdf.exe" "application/pdf").errors = [] :=
  ⟨by decide, by decide⟩

/-- Filename validation rejects (for any declared MIME type) whenever the name
has more than two dot-separated parts and the lowercased second-to-last part
is a dangerous extension. -/
theorem validateFileName_isValid_false (fileName mimeType : String)
    (h1 : (strSplit '.' fileName).length > 2)
    (h2 : FileSecurityService.dangerousSecondExtensions.contains
      (lowerStr ((strSplit '.' fileName).getD ((strSplit '.' fileName).length - 2) "")) = true) :
    (FileSecurityService.validateFileName fileName mimeType).isValid = false := by
  have h2m := h2
  simp at h2m
  unfold FileSecurityService.validateFileName
  simp [h1, h2m]

/-- C3 (amended): the double-extension rule fires on names whose second-to-last
segment is dangerous — `invoice.exe.pdf` is rejected by the Content Validator
for any byte content, declared type and scan configuration — while
`invoice.pdf.exe` is instead rejected by the upload middleware's
dangerous-extension blocklist on its final `.exe` extension, likewise
independent of the byte content. -/
theorem double_extension_rejection_amended :
    (∀ (buf : List Nat) (mime : String) (scan : Option VirusScanResult),
      (FileSecurityService.validateFile buf "invoice.exe.pdf" mime scan).isValid = false) ∧
    (∀ (f : UploadFileInfo) (b : UploadBody), f.originalname = "invoice.pdf.exe" →
      f.size ≤ 50 * 1024 * 1024 →
      validateFileUpload (some f) b = .reject "DANGEROUS_FILE_TYPE") := by
  constructor
  · intro buf mime scan
    have hn : (FileSecurityService.validateFileName "invoice.exe.pdf" mime).isValid = false :=
      validateFileName_isValid_false "invoice.exe.pdf" mime (by decide) (by decide)
    rw [FileSecurityService.validateFile_eq]
    simp [hn]
  · intro f b hname hsize
    simp only [validateFileUpload]
    rw [hname]
    rw [if_neg (by omega), if_neg (by decide), if_pos (by decide)]

/-- Witness file for the middleware half of C3. -/
def exeFile : UploadFileInfo :=
  { originalname := "invoice.pdf.exe", mimetype := "application/pdf", size := 10, buffer := [1] }

/-- A body with no optional fields. -/
def emptyBody : UploadBody :=
  { categoryId := none, description := none, tags := .missing }

/-- Witness for the amended C3 at concrete inputs. -/
theorem double_extension_rejection_amended_witness :
    (FileSecurityService.validateFile [] "invoice.exe.pdf" "application/pdf" none).isValid = false ∧
    validateFileUpload (some exeFile) emptyBody = .reject "DANGEROUS_FILE_TYPE" :=
  ⟨double_extension_rejection_amended.1 [] "application/pdf" none,
   double_extension_rejection_amended.2 exeFile emptyBody rfl (by decide)⟩

/-! ## C4: filenames longer than 255 characters -/

/-- C4: every upload whose filename is longer than 255 characters is rejected
by the upload validation middleware — either by the explicit length check
(`FILE_NAME_TOO_LONG`) or by one of the filename checks ordered before it. -/
theorem upload_rejected_for_overlong_filename (f : UploadFileInfo) (b : UploadBody)
    (h : strLen f.originalname > 255) :
    ∃ code, validateFileUpload (some f) b = .reject code := by
  simp only [validateFileUpload]
  split_ifs <;> exact ⟨_, rfl⟩

/-- A file with a 256-character name. -/
def longNameFile : UploadFileInfo :=
  { originalname := String.mk (List.replicate 256 'a'), mimetype := "text/plain",
    size := 1, buffer := [65] }

/-- Witness for C4 at a 256-character filename. -/
theorem upload_rejected_for_overlong_filename_witness :
    ∃ code, validateFileUpload (some longNameFile) emptyBody = .reject code :=
  upload_rejected_for_overlong_filename longNameFile emptyBody (by decide)

/-! ## C5: tag and description limits -/

/-- Eleven short tags. -/
def elevenTags : List String :=
  ["t1", "t2", "t3", "t4", "t5", "t6", "t7", "t8", "t9", "t10", "t11"]

/-- The same eleven tags as the multipart string field. -/
def elevenTagsRaw : String :=
  "[\"t1\",\"t2\",\"t3\",\"t4\",\"t5\",\"t6\",\"t7\",\"t8\",\"t9\",\"t10\",\"t11\"]"

/-- A well-formed small PDF upload file. -/
def pdfFile : UploadFileInfo :=
  { originalname := "report.pdf", mimetype := "application/pdf", size := 4,
    buffer := [37, 80, 68, 70] }

/-- Body carrying eleven tags in the string shape multipart requests produce. -/
def elevenTagBody : UploadBody :=
  { categoryId := none, description := none, tags := .str elevenTagsRaw }

/-- An environment where validation, put and create all succeed. -/
def okEnv : UploadEnv :=
  { userTotalSize := 0,
    s3Put := .ok { key := "documents/u1/x.pdf", location := "l", etag := "e", bucket := "b" },
    metaCreate := .ok (), newId := "doc-3", now := 7 }

/-- The upload payload assembled by the controller for the eleven-tag body. -/
def elevenTagUpload : FileUploadData :=
  { file := pdfFile, userId := "u1", categoryId := none, description := none,
    tags := some (parseTags (some elevenTags)), securityMetadata := none }

/-- C5 counterexample: an upload carrying eleven tags in the string shape of a
multipart form field passes the validation middleware (the custom `JSON.parse`
alternative of the Joi schema accepts any string), and the pipeline then
creates a Document with those eleven tags — no structured rejection occurs. -/
theorem eleven_tags_string_accepted :
    validateFileUpload (some pdfFile) elevenTagBody =
      .ok { categoryId := none, description := none, tags := some elevenTags } ∧
    elevenTags.length = 11 ∧
    (FileService.uploadFile okEnv elevenTagUpload).1.map (fun r => r.document.tags) =
      .ok elevenTags :=
  ⟨by decide, by decide, rfl⟩

/-- A rejection (reject, never next) follows whenever the Joi body validation
fails, whatever the file looks like. -/
theorem mw_not_accepted_of_body_invalid (f : UploadFileInfo) (b : UploadBody)
    (h : joiValidateUploadBody b = none) :
    (validateFileUpload (some f) b).accepted = false := by
  simp only [validateFileUpload]
  split_ifs <;> simp [MWOutcome.accepted, h]

/-- C5 (amended): a description longer than 500 characters (after trimming) is
rejected with a structured rejection before any Document is created, and so is
a tags field that arrives as a genuine array violating the limits (more than
10 tags, or a tag longer than 50 characters after trimming); a tags field
arriving as a string — the multipart path — is not subject to those limits. -/
theorem upload_body_limits_amended :
    (∀ (f : UploadFileInfo) (b : UploadBody) (d : String), b.description = some d →
      500 < strLen (trimStr d) → (validateFileUpload (some f) b).accepted = false) ∧
    (∀ (f : UploadFileInfo) (b : UploadBody) (items : List String), b.tags = .arr items →
      (10 < items.length ∨ ∃ t ∈ items, 50 < strLen (trimStr t)) →
      (validateFileUpload (some f) b).accepted = false) := by
  constructor
  · intro f b d hdesc hlong
    apply mw_not_accepted_of_body_invalid
    have hd : joiValidateDescription b.description = none := by
      rw [hdesc]
      simp only [joiValidateDescription]
      simp [show ¬ (strLen (trimStr d) ≤ 500) by omega]
    unfold joiValidateUploadBody
    rw [hd]
    rcases joiValidateCategoryId b.categoryId with _ | c <;>
      rcases joiValidateTags b.tags with _ | t <;> rfl
  · intro f b items htags hbad
    apply mw_not_accepted_of_body_invalid
    have hok : tagItemsOk items = false := by
      unfold tagItemsOk
      rcases hbad with hlen | ⟨t, ht, hlong⟩
      · have : decide (items.length ≤ 10) = false := by simp; omega
        simp [this]
      · have : items.all (fun t => decide (strLen (trimStr t) ≤ 50)) = false := by
          rw [List.all_eq_false]
          exact ⟨t, ht, by simp; omega⟩
        simp [this]
    have ht : joiValidateTags b.tags = none := by
      rw [htags]
      simp only [joiValidateTags]
      simp [hok]
    unfold joiValidateUploadBody
    rw [ht]
    rcases joiValidateCategoryId b.categoryId with _ | c <;>
      rcases joiValidateDescription b.description with _ | d <;> rfl

/-- Body with a 501-character description. -/
def longDescBody : UploadBody :=
  { categoryId := none, description := some (String.mk (List.replicate 501 'a')),
    tags := .missing }

/-- Body with eleven tags as a genuine array. -/
def elevenArrBody : UploadBody :=
  { categoryId := none, description := none, tags := .arr elevenTags }

/-- Witness for the amended C5 at concrete bodies. -/
theorem upload_body_limits_amended_witness :
    (validateFileUpload (some pdfFile) longDescBody).accepted = false ∧
    (validateFileUpload (some pdfFile) elevenArrBody).accepted = false :=
  ⟨upload_body_limits_amended.1 pdfFile longDescBody _ rfl (by decide),
   upload_body_limits_amended.2 pdfFile elevenArrBody elevenTags rfl (Or.inl (by decide))⟩

/-! ## C6: check order and short-circuiting of the Content Validator -/

/-- C6 counterexample: on the empty payload named `a.exe.pdf` the verdict
carries the signature-check error and the filename-check error ahead of the
emptiness error. Emptiness is therefore not checked first, and a failing check
does not stop the later checks: all three failures are reported. -/
theorem validator_no_short_circuit_counterexample :
    (FileSecurityService.validateFile [] "a.exe.pdf" "application/pdf" none).errors =
      ["File too small to validate signature",
       "File has potentially dangerous double extension",
       "File is empty"] ∧
    (FileSecurityService.validateFile [] "a.exe.pdf" "application/pdf" none).isValid = false :=
  ⟨by decide, by decide⟩

/-- C6 (amended): the validator runs every check unconditionally in the fixed
order signature match, dangerous-signature blocklist, filename validation,
embedded-content check, emptiness, null-byte check, optional malware scan;
errors and warnings from all checks accumulate in that order, and the verdict
rejects exactly when at least one check failed. -/
theorem validator_check_order_amended (buf : List Nat) (name mime : String)
    (scan : Option VirusScanResult) :
    (FileSecurityService.validateFile buf name mime scan).errors =
      (if (FileSecurityService.validateFileSignature buf mime).isValid then []
       else (FileSecurityService.validateFileSignature buf mime).errors) ++
      (if (FileSecurityService.checkDangerousSignatures buf).isValid then []
       else (FileSecurityService.checkDangerousSignatures buf).errors) ++
      (if (FileSecurityService.validateFileName name mime).isValid then []
       else (FileSecurityService.validateFileName name mime).errors) ++
      (if buf.isEmpty then ["File is empty"] else []) ++
      FileSecurityService.scanErrors scan ∧
    (FileSecurityService.validateFile buf name mime scan).warnings =
      (if (FileSecurityService.validateFileSignature buf mime).isValid then []
       else (FileSecurityService.validateFileSignature buf mime).warnings) ++
      (if (FileSecurityService.validateFileName name mime).isValid then []
       else (FileSecurityService.validateFileName name mime).warnings) ++
      (FileSecurityService.checkEmbeddedContent buf mime).warnings ++
      (if FileSecurityService.containsNullBytes buf then
         ["File contains null bytes, which may indicate binary content"] else []) ++
      FileSecurityService.scanWarnings scan ∧
    (FileSecurityService.validateFile buf name mime scan).isValid =
      ((FileSecurityService.validateFileSignature buf mime).isValid &&
       (FileSecurityService.checkDangerousSignatures buf).isValid &&
       (FileSecurityService.validateFileName name mime).isValid &&
       !buf.isEmpty && FileSecurityService.scanPasses scan) := by
  rw [FileSecurityService.validateFile_eq]
  exact ⟨rfl, rfl, rfl⟩

/-! ## C7: dangerous executable signatures -/

/-- A two-byte buffer holding the PE magic `MZ`. -/
def mzBytes : List Nat := [77, 90]

/-- C7 counterexample: the two-byte file `MZ` begins with the blocklisted PE
signature `4D5A`, yet the validator does not flag it as executable-like
(`isExecutable` is false): `checkDangerousSignatures` skips buffers below four
bytes. The file is rejected, but only by the too-small signature check. -/
theorem two_byte_pe_not_flagged :
    strStarts (bytesToHex mzBytes) "4D5A" = true ∧
    FileSecurityService.dangerousSignatures.contains "4D5A" = true ∧
    (FileSecurityService.validateFile mzBytes "invoice.pdf" "application/pdf" none).metadata.isExecutable =
      some false ∧
    (FileSecurityService.validateFile mzBytes "invoice.pdf" "application/pdf" none).isValid = false :=
  ⟨by decide, by decide, by decide, by decide⟩

/-- C7 (amended): every file of at least four bytes whose leading bytes match
a blocklisted executable signature is rejected by the validator and flagged as
executable-like, independent of the declared content type, the filename and
the scan configuration. -/
theorem dangerous_signature_rejected_amended (buf : List Nat) (name mime : String)
    (scan : Option VirusScanResult) (hlen : 4 ≤ buf.length)
    (hsig : ∃ sig ∈ FileSecurityService.dangerousSignatures,
      strStarts (bytesToHex (buf.take 8)) sig = true) :
    (FileSecurityService.validateFile buf name mime scan).isValid = false ∧
    (FileSecurityService.validateFile buf name mime scan).metadata.isExecutable = some true := by
  have hdc : FileSecurityService.checkDangerousSignatures buf =
      { isValid := false, errors := ["File appears to be an executable or dangerous file type"],
        isExecutable := true } := by
    unfold FileSecurityService.checkDangerousSignatures
    rw [if_neg (by omega)]
    have hany : FileSecurityService.dangerousSignatures.any
        (fun d => strStarts (bytesToHex (buf.take 8)) d) = true := by
      rcases hsig with ⟨sig, hmem, hpre⟩
      exact List.any_eq_true.mpr ⟨sig, hmem, hpre⟩
    simp only [hany, if_true]
  rw [FileSecurityService.validateFile_eq]
  exact ⟨by simp [hdc], by simp [hdc]⟩

/-- A four-byte PE header. -/
def peBytes : List Nat := [77, 90, 144, 0]

/-- Witness for the amended C7: a renamed four-byte PE file declared as PDF. -/
theorem dangerous_signature_rejected_amended_witness :
    (FileSecurityService.validateFile peBytes "doc.pdf" "application/pdf" none).isValid = false ∧
    (FileSecurityService.validateFile peBytes "doc.pdf" "application/pdf" none).metadata.isExecutable =
      some true :=
  dangerous_signature_rejected_amended peBytes "doc.pdf" "application/pdf" none
    (by decide) ⟨"4D5A", by decide, by decide⟩

/-! ## C8: malware scan hard-reject on infection, fail-open on error -/

/-- C8: with scanning enabled, a reported infection makes the validator reject
the file; a clean result carrying a scan error leaves the verdict and the
error list exactly as they are without scanning — the scan error surfaces only
as an extra warning (fail-open). -/
theorem malware_scan_policy (buf : List Nat) (name mime : String) (vr : VirusScanResult) :
    (vr.isClean = false →
      (FileSecurityService.validateFile buf name mime (some vr)).isValid = false) ∧
    (vr.isClean = true →
      (FileSecurityService.validateFile buf name mime (some vr)).isValid =
        (FileSecurityService.validateFile buf name mime none).isValid ∧
      (FileSecurityService.validateFile buf name mime (some vr)).errors =
        (FileSecurityService.validateFile buf name mime none).errors ∧
      (FileSecurityService.validateFile buf name mime (some vr)).warnings =
        (FileSecurityService.validateFile buf name mime none).warnings ++
          FileSecurityService.scanWarnings (some vr)) := by
  constructor
  · intro hc
    rw [FileSecurityService.validateFile_eq]
    simp [FileSecurityService.scanPasses, hc]
  · intro hc
    rw [FileSecurityService.validateFile_eq, FileSecurityService.validateFile_eq]
    refine ⟨by simp [FileSecurityService.scanPasses, hc],
            by simp [FileSecurityService.scanErrors, hc],
            by simp [FileSecurityService.scanErrors, FileSecurityService.scanWarnings, hc]⟩

/-- A scan result reporting an infection. -/
def vrInfected : VirusScanResult :=
  { isClean := false, threats := ["Eicar-Test-Signature"], scanEngine := some "clamav",
    errorMessage := none }

/-- The fail-open scan result produced by an erroring scan. -/
def vrErrored : VirusScanResult :=
  { isClean := true, threats := [], scanEngine := some "none",
    errorMessage := some "Unknown scan engine: none" }

/-- A well-formed PDF header buffer. -/
def pdfHeaderBytes : List Nat := [37, 80, 68, 70, 45, 49, 46, 52]

/-- Witness for C8 at concrete scan results. -/
theorem malware_scan_policy_witness :
    (FileSecurityService.validateFile pdfHeaderBytes "a.pdf" "application/pdf" (some vrInfected)).isValid =
      false ∧
    (FileSecurityService.validateFile pdfHeaderBytes "a.pdf" "application/pdf" (some vrErrored)).errors =
      (FileSecurityService.validateFile pdfHeaderBytes "a.pdf" "application/pdf" none).errors :=
  ⟨(malware_scan_policy pdfHeaderBytes "a.pdf" "application/pdf" vrInfected).1 rfl,
   ((malware_scan_policy pdfHeaderBytes "a.pdf" "application/pdf" vrErrored).2 rfl).2.1⟩

/-! ## C9: presigned URL validity and disposition -/

/-- An environment configuring a 300-second presigned validity. -/
def expiry300Env : String → Option String := fun k =>
  if k == "AWS_ACCESS_KEY_ID" then some "AKIAEXAMPLE"
  else if k == "AWS_SECRET_ACCESS_KEY" then some "secretkey"
  else if k == "S3_BUCKET_NAME" then some "freehold-documents"
  else if k == "S3_PRESIGNED_URL_EXPIRES" then some "300"
  else none

/-- C9 counterexample: the presigned validity is not fixed at 900 seconds —
it is read from `S3_PRESIGNED_URL_EXPIRES` at service creation, and with that
variable set to `300` every minted URL carries a 300-second validity. -/
theorem presigned_expiry_env_configurable :
    (createS3Service expiry300Env).map
        (fun svc => (svc.generatePresignedDownloadUrl "documents/u/k.pdf").expires) =
      .ok (some 300) ∧
    (createS3Service expiry300Env).map
        (fun svc => (svc.generatePresignedViewUrl "documents/u/k.pdf").expires) =
      .ok (some 300) :=
  ⟨rfl, rfl⟩

/-- C9 (amended): every presigned request minted by a successfully created
service carries the validity configured at creation — 900 seconds (15 minutes)
whenever `S3_PRESIGNED_URL_EXPIRES` is unset — and the disposition is baked
into the signed request: download URLs always sign `attachment`, view URLs
always sign `inline`, so the two requests differ and a URL minted for one
disposition does not validate for the other. -/
theorem presigned_disposition_amended (env : String → Option String) (svc : S3Service)
    (key : String) (h : createS3Service env = .ok svc) :
    (svc.generatePresignedDownloadUrl key).responseContentDisposition = "attachment" ∧
    (svc.generatePresignedViewUrl key).responseContentDisposition = "inline" ∧
    (svc.generatePresignedDownloadUrl key).expires = svc.presignedUrlExpires ∧
    (svc.generatePresignedViewUrl key).expires = svc.presignedUrlExpires ∧
    (env "S3_PRESIGNED_URL_EXPIRES" = none → svc.presignedUrlExpires = some 900) := by
  refine ⟨rfl, rfl, rfl, rfl, ?_⟩
  intro henv
  simp only [createS3Service] at h
  split_ifs at h
  cases h
  simp only [envOr, henv]
  decide

/-- An environment that leaves the presigned validity unset. -/
def defaultAwsEnv : String → Option String := fun k =>
  if k == "AWS_ACCESS_KEY_ID" then some "AKIAEXAMPLE"
  else if k == "AWS_SECRET_ACCESS_KEY" then some "secretkey"
  else if k == "S3_BUCKET_NAME" then some "freehold-documents"
  else none

/-- The service created from the default environment. -/
def defaultS3Service : S3Service :=
  { bucketName := "freehold-documents", presignedUrlExpires := some 900 }

/-- Witness for the amended C9 at the default environment. -/
theorem presigned_disposition_amended_witness :
    (defaultS3Service.generatePresignedDownloadUrl "k").responseContentDisposition = "attachment" ∧
    (defaultS3Service.generatePresignedViewUrl "k").responseContentDisposition = "inline" ∧
    defaultS3Service.presignedUrlExpires = some 900 := by
  have h := presigned_disposition_amended defaultAwsEnv defaultS3Service "k" rfl
  exact ⟨h.1, h.2.1, h.2.2.2.2 rfl⟩

/-! ## C10: no ownership check on the retrieval path -/

/-- C10: for every document that exists and whose stored object exists, the
download and view paths succeed for every caller — the caller id plays no role
— and neither path can produce the Forbidden (permission denied) outcome;
deletion by a non-owner, in contrast, does produce it. -/
theorem retrieval_without_ownership_check (svc : S3Service)
    (st : FileService.FileSystemState) (documentId userId : String) :
    (∀ doc, FileService.getDocumentById st.documents documentId = some doc →
      st.s3Keys.contains doc.s3Key = true →
      FileService.getDownloadUrl svc st documentId userId =
        .ok (svc.generatePresignedDownloadUrl doc.s3Key) ∧
      FileService.getViewUrl svc st documentId userId =
        .ok (svc.generatePresignedViewUrl doc.s3Key)) ∧
    FileService.isForbidden (FileService.getDownloadUrl svc st documentId userId) = false ∧
    FileService.isForbidden (FileService.getViewUrl svc st documentId userId) = false ∧
    (∀ doc, FileService.getDocumentById st.documents documentId = some doc →
      doc.uploadedBy ≠ userId →
      FileService.isForbidden (FileService.deleteDocument st documentId userId) = true) := by
  refine ⟨?_, ?_, ?_, ?_⟩
  · intro doc hdoc hkey
    have hk : doc.s3Key ∈ st.s3Keys := by simpa using hkey
    constructor <;>
      simp [FileService.getDownloadUrl, FileService.getViewUrl, hdoc, hk]
  · unfold FileService.getDownloadUrl
    rcases hdoc : FileService.getDocumentById st.documents documentId with _ | doc
    · simp [FileService.isForbidden]
    · by_cases hk : doc.s3Key ∈ st.s3Keys <;> simp [hk, FileService.isForbidden]
  · unfold FileService.getViewUrl
    rcases hdoc : FileService.getDocumentById st.documents documentId with _ | doc
    · simp [FileService.isForbidden]
    · by_cases hk : doc.s3Key ∈ st.s3Keys <;> simp [hk, FileService.isForbidden]
  · intro doc hdoc hne
    simp [FileService.deleteDocument, hdoc, hne, FileService.isForbidden]

/-- A document owned by `owner`. -/
def ownerDoc : Document :=
  { id := "d1", fileName := "a.pdf", originalName := "a.pdf", fileSize := 4,
    mimeType := "application/pdf", s3Key := "documents/owner/a.pdf", categoryId := none,
    uploadedBy := "owner", description := none, tags := [], securityMetadata := none,
    createdAt := 0, updatedAt := 0 }

/-- State holding that one document and its stored object. -/
def oneDocState : FileService.FileSystemState :=
  { documents := [ownerDoc], s3Keys := ["documents/owner/a.pdf"] }

/-- The service used by the C10 witness. -/
def witnessS3Service : S3Service :=
  { bucketName := "freehold-documents", presignedUrlExpires := some 900 }

/-- Witness for C10: a caller other than the uploader gets a download URL, and
the same caller's delete attempt is Forbidden. -/
theorem retrieval_without_ownership_check_witness :
    FileService.getDownloadUrl witnessS3Service oneDocState "d1" "stranger" =
      .ok (witnessS3Service.generatePresignedDownloadUrl "documents/owner/a.pdf") ∧
    FileService.isForbidden (FileService.deleteDocument oneDocState "d1" "stranger") = true := by
  have h := retrieval_without_ownership_check witnessS3Service oneDocState "d1" "stranger"
  exact ⟨(h.1 ownerDoc rfl rfl).1, h.2.2.2 ownerDoc rfl (by decide)⟩

end FreeholdDocs
